import Mathlib

/-
  Verification of the JACK audio backend (jack.c) of xwax.

  Shallow embedding notes:
  * JACK native samples (C float) are modelled as rationals.  The only
    floating-point operations performed by the source are multiplication
    and division by SCALE = 32768 = 2^15 and int16-to-float conversion,
    all of which are exact in binary floating point for the values in
    range, so the rational model is faithful.
  * The C cast `(signed short)(float)` truncates toward zero; the
    resulting int is stored in a 16-bit twos-complement field, modelled
    as reduction modulo 2^16 into [-32768, 32767].
  * DEVICE_CHANNELS comes from device.h (not part of this tree); the
    source asserts DEVICE_CHANNELS == 2 in register_ports, and the spec
    fixes exactly two channels, so it is embedded as the constant 2.
-/

namespace Jack

/-- DEVICE_CHANNELS from device.h; asserted equal to 2 by register_ports. -/
def DEVICE_CHANNELS : ℕ := 2

/-- SCALE from jack.c: the fixed-point scaling factor 32768. -/
def SCALE : ℚ := 32768

/-- C truncation toward zero of a rational, as performed by the cast
`(signed short)(sample * SCALE)`. -/
def truncQ (q : ℚ) : ℤ := if 0 ≤ q then ⌊q⌋ else ⌈q⌉

/-- Reduction of an integer into a signed 16-bit twos-complement field
(wraparound semantics of storing into `signed short`). -/
def toSigned16 (z : ℤ) : ℤ := (z + 32768) % 65536 - 32768

/-- One sample conversion of interleave: `*buf = (signed short)(*jbuf[n] * SCALE)`. -/
def sample_to_fixed (v : ℚ) : ℤ := toSigned16 (truncQ (v * SCALE))

/-- One sample conversion of uninterleave:
`*jbuf[n] = (jack_default_audio_sample_t)*buf / SCALE`. -/
def fixed_to_sample (z : ℤ) : ℚ := (z : ℚ) / SCALE

/-- The frame loop of interleave, starting at frame `f` with `m` frames
remaining: for each frame, for each channel in order, emit the converted
sample.  `jbuf n i` is the native sample of channel `n` at frame `i`. -/
def interleave_go (jbuf : ℕ → ℕ → ℚ) : ℕ → ℕ → List ℤ
  | _, 0 => []
  | f, m + 1 =>
    ((List.range DEVICE_CHANNELS).map fun n => sample_to_fixed (jbuf n f))
      ++ interleave_go jbuf (f + 1) m

/-- interleave from jack.c: write `nframes` frames of `DEVICE_CHANNELS`
channels from the per-channel buffers `jbuf` into one interleaved
fixed-point buffer. -/
def interleave (jbuf : ℕ → ℕ → ℚ) (nframes : ℕ) : List ℤ :=
  interleave_go jbuf 0 nframes

/-- uninterleave from jack.c: read the interleaved fixed-point buffer
sequentially and write each channel buffer; channel `n` at frame `f`
receives `buf[DEVICE_CHANNELS * f + n] / SCALE`. -/
def uninterleave (buf : List ℤ) (nframes : ℕ) : ℕ → List ℚ :=
  fun n => (List.range nframes).map fun f =>
    fixed_to_sample (buf.getD (DEVICE_CHANNELS * f + n) 0)

theorem interleave_go_length (jbuf : ℕ → ℕ → ℚ) (f m : ℕ) :
    (interleave_go jbuf f m).length = DEVICE_CHANNELS * m := by
  induction m generalizing f with
  | zero => simp [interleave_go]
  | succ m ih => simp [interleave_go, ih]; ring

theorem channel_map_eq (g : ℕ → ℤ) :
    (List.range DEVICE_CHANNELS).map g = [g 0, g 1] := by
  simp [DEVICE_CHANNELS, List.range_succ]

theorem interleave_go_getD (jbuf : ℕ → ℕ → ℚ) (m f k n : ℕ)
    (hk : k < m) (hn : n < DEVICE_CHANNELS) :
    (interleave_go jbuf f m).getD (DEVICE_CHANNELS * k + n) 0
      = sample_to_fixed (jbuf n (f + k)) := by
  simp only [DEVICE_CHANNELS] at hn ⊢
  induction m generalizing f k with
  | zero => omega
  | succ m ih =>
    cases k with
    | zero =>
      rw [interleave_go, channel_map_eq]
      interval_cases n <;> simp
    | succ k =>
      rw [interleave_go, channel_map_eq]
      have hidx : 2 * (k + 1) + n = (2 * k + n) + 1 + 1 := by ring
      rw [hidx]
      simp only [List.cons_append, List.nil_append, List.getD_cons_succ]
      rw [ih (f + 1) k (by omega)]
      have harg : f + 1 + k = f + (k + 1) := by omega
      rw [harg]

theorem interleave_getD (jbuf : ℕ → ℕ → ℚ) (nframes f n : ℕ)
    (hf : f < nframes) (hn : n < DEVICE_CHANNELS) :
    (interleave jbuf nframes).getD (DEVICE_CHANNELS * f + n) 0
      = sample_to_fixed (jbuf n f) := by
  have := interleave_go_getD jbuf nframes 0 f n hf hn
  simpa [interleave] using this

theorem range_map_getD {α : Type} (g : ℕ → α) (f m : ℕ) (d : α) (h : f < m) :
    ((List.range m).map g).getD f d = g f := by
  rw [List.getD_eq_getElem?_getD, List.getElem?_map, List.getElem?_range h]
  rfl

theorem truncQ_abs_sub (q : ℚ) : |(truncQ q : ℚ) - q| ≤ 1 := by
  unfold truncQ
  split
  · rw [abs_le]
    constructor
    · have := Int.lt_floor_add_one q
      linarith
    · have := Int.floor_le q
      linarith
  · rw [abs_le]
    constructor
    · have := Int.le_ceil q
      linarith
    · have := Int.ceil_lt_add_one q
      linarith

theorem truncQ_range (q : ℚ) (h1 : -32768 ≤ q) (h2 : q ≤ 32767) :
    -32768 ≤ truncQ q ∧ truncQ q ≤ 32767 := by
  unfold truncQ
  split
  · rename_i h
    constructor
    · have : (0 : ℤ) ≤ ⌊q⌋ := Int.floor_nonneg.mpr h
      omega
    · have hle : (⌊q⌋ : ℚ) ≤ 32767 := le_trans (Int.floor_le q) h2
      exact_mod_cast hle
  · rename_i h
    push_neg at h
    constructor
    · have hle : (-32768 : ℚ) ≤ (⌈q⌉ : ℚ) := le_trans h1 (Int.le_ceil q)
      exact_mod_cast hle
    · have : ⌈q⌉ ≤ 0 := Int.ceil_le.mpr (by exact_mod_cast le_of_lt h)
      omega

theorem toSigned16_eq_self (z : ℤ) (h1 : -32768 ≤ z) (h2 : z ≤ 32767) :
    toSigned16 z = z := by
  unfold toSigned16
  have : (z + 32768) % 65536 = z + 32768 :=
    Int.emod_eq_of_lt (by omega) (by omega)
  omega

/-- Scalar round trip: converting a native sample to fixed point and back
loses at most one quantization step. -/
theorem roundtrip_scalar (v : ℚ) (hlo : -1 ≤ v) (hhi : v ≤ 32767 / 32768) :
    |fixed_to_sample (sample_to_fixed v) - v| ≤ 1 / 32768 := by
  have hq1 : -32768 ≤ v * SCALE := by unfold SCALE; nlinarith
  have hq2 : v * SCALE ≤ 32767 := by unfold SCALE; nlinarith
  obtain ⟨hr1, hr2⟩ := truncQ_range (v * SCALE) hq1 hq2
  unfold sample_to_fixed
  rw [toSigned16_eq_self _ hr1 hr2]
  have key : fixed_to_sample (truncQ (v * SCALE)) - v
      = ((truncQ (v * SCALE) : ℚ) - v * SCALE) / 32768 := by
    unfold fixed_to_sample SCALE
    field_simp
    ring
  rw [key, abs_div, abs_of_pos (by norm_num : (0:ℚ) < 32768)]
  gcongr
  exact truncQ_abs_sub (v * SCALE)

/-- C1: for every native sample value representable within the signed
16-bit fixed-point range, uninterleave of interleave reproduces the value
within one quantization step (|error| ≤ 1/32768), at every frame and
channel position. -/
theorem uninterleave_interleave_roundtrip (jbuf : ℕ → ℕ → ℚ)
    (nframes f n : ℕ) (hf : f < nframes) (hn : n < DEVICE_CHANNELS)
    (hlo : -1 ≤ jbuf n f) (hhi : jbuf n f ≤ 32767 / 32768) :
    |(uninterleave (interleave jbuf nframes) nframes n).getD f 0 - jbuf n f|
      ≤ 1 / 32768 := by
  unfold uninterleave
  rw [range_map_getD _ _ _ _ hf, interleave_getD jbuf nframes f n hf hn]
  exact roundtrip_scalar (jbuf n f) hlo hhi

/-- C1 witness: a concrete instance of the round trip bound. -/
theorem uninterleave_interleave_roundtrip_witness :
    |(uninterleave (interleave (fun _ _ => (1:ℚ)/2) 1) 1 0).getD 0 0
        - (1:ℚ)/2| ≤ 1 / 32768 :=
  uninterleave_interleave_roundtrip (fun _ _ => (1:ℚ)/2) 1 0 0
    (by norm_num) (by norm_num [DEVICE_CHANNELS]) (by norm_num) (by norm_num)

/-- C2 counterexample: the interleaved value is not `round(src * SCALE)`;
the C cast truncates toward zero, so 3/65536 (whose scaled value is 3/2)
is stored as 1, while rounding would store 2. -/
theorem interleave_round_counterexample :
    (interleave (fun _ _ => (3:ℚ)/65536) 1).getD 0 0
      ≠ round (((3:ℚ)/65536) * SCALE) := by
  have hL : (interleave (fun _ _ => (3:ℚ)/65536) 1).getD 0 0
      = sample_to_fixed ((3:ℚ)/65536) := by
    have h := interleave_getD (fun _ _ => (3:ℚ)/65536) 1 0 0
      (by norm_num) (by norm_num [DEVICE_CHANNELS])
    simpa [DEVICE_CHANNELS] using h
  have hval : ((3:ℚ)/65536) * SCALE = 3/2 := by unfold SCALE; norm_num
  have hfloor : truncQ ((3:ℚ)/2) = 1 := by
    unfold truncQ
    rw [if_pos (by norm_num), Int.floor_eq_iff]
    constructor <;> norm_num
  have hround : round ((3:ℚ)/2) = 2 := by
    rw [round_eq, show (3:ℚ)/2 + 1/2 = 2 by norm_num, Int.floor_eq_iff]
    constructor <;> norm_num
  rw [hL]
  show toSigned16 (truncQ ((3:ℚ)/65536 * SCALE)) ≠ round ((3:ℚ)/65536 * SCALE)
  rw [hval, hfloor, hround]
  decide

/-- C2 (amended): for each frame and each channel in channel order,
interleave writes the truncation toward zero of `src * SCALE`, reduced
into the signed 16-bit field by wraparound, with no clamping; exactly
`DEVICE_CHANNELS * nframes` samples are written. -/
theorem interleave_writes (jbuf : ℕ → ℕ → ℚ) (nframes f n : ℕ)
    (hf : f < nframes) (hn : n < DEVICE_CHANNELS) :
    (interleave jbuf nframes).length = DEVICE_CHANNELS * nframes ∧
    (interleave jbuf nframes).getD (DEVICE_CHANNELS * f + n) 0
      = toSigned16 (truncQ (jbuf n f * SCALE)) :=
  ⟨interleave_go_length jbuf 0 nframes, interleave_getD jbuf nframes f n hf hn⟩

/-- C2 witness: a concrete instance, with an out-of-range sample showing
the unclamped wraparound value being stored. -/
theorem interleave_writes_witness :
    (interleave (fun _ _ => (2:ℚ)) 1).length = DEVICE_CHANNELS * 1 ∧
    (interleave (fun _ _ => (2:ℚ)) 1).getD (DEVICE_CHANNELS * 0 + 1) 0
      = toSigned16 (truncQ ((2:ℚ) * SCALE)) :=
  interleave_writes (fun _ _ => (2:ℚ)) 1 0 1 (by norm_num)
    (by norm_num [DEVICE_CHANNELS])

/-- C8: a full-scale input sample of exactly 1.0 is stored as fixed-point
32768 wrapped into the signed 16-bit field: the stored signed value is
-32768 and its 16-bit pattern is 32768 mod 2^16 (no clamping). -/
theorem interleave_fullscale_wraparound :
    interleave (fun _ _ => (1:ℚ)) 1 = [-32768, -32768] ∧
    (-32768 : ℤ) % 65536 = 32768 := by
  constructor
  · have h1 : sample_to_fixed (1:ℚ) = -32768 := by
      show toSigned16 (truncQ ((1:ℚ) * SCALE)) = -32768
      rw [show (1:ℚ) * SCALE = 32768 by unfold SCALE; norm_num]
      have hf : truncQ (32768:ℚ) = 32768 := by
        unfold truncQ
        rw [if_pos (by norm_num), Int.floor_eq_iff]
        constructor <;> norm_num
      rw [hf]
      decide
    simp [interleave, interleave_go, channel_map_eq, h1, DEVICE_CHANNELS,
      List.replicate]
  · decide

/-- A deck as seen by this backend: the device_t record together with the
per-cycle collaborator behaviour.  `inputBuf n i` is the native sample of
input channel `n` at index `i` supplied by jack_port_get_buffer;
`playerOut nframes rate` is the interleaved buffer content produced by
player_collect; `hasTimecoder` models `dv->timecoder != NULL`.
`localSet` and `hooksSet` model the fields written by jack_init. -/
structure Device where
  id : ℕ
  hasTimecoder : Bool
  inputBuf : ℕ → ℕ → ℚ
  playerOut : ℕ → ℕ → List ℤ
  localSet : Bool
  hooksSet : Bool

/-- Calls made to the external collaborators from the real-time path. -/
inductive Event where
  | submit (deckId : ℕ) (buf : List ℤ) (nframes rate : ℕ)
  | collect (deckId : ℕ) (nframes rate : ℕ)
  deriving DecidableEq

/-- process_deck from jack.c: interleave the timecode input, submit it to
the timecoder when one is attached, collect from the player, and
uninterleave into the output channel buffers.  The result is the trace of
collaborator calls and the contents written to each output channel. -/
def process_deck (rate : ℕ) (dv : Device) (nframes : ℕ) :
    List Event × (ℕ → List ℚ) :=
  let buf := interleave dv.inputBuf nframes
  let evs := if dv.hasTimecoder then [Event.submit dv.id buf nframes rate]
             else []
  let outbuf := dv.playerOut nframes rate
  (evs ++ [Event.collect dv.id nframes rate], uninterleave outbuf nframes)

/-- process_callback from jack.c: iterate the deck registry in order,
process each deck, and return 0 ("continue running"). -/
def process_callback (rate : ℕ) (registry : List Device) (nframes : ℕ) :
    List Event × ℤ :=
  (registry.flatMap fun dv => (process_deck rate dv nframes).1, 0)

/-- The deck id of a player_collect call event. -/
def collectId : Event → Option ℕ
  | Event.collect i _ _ => some i
  | _ => none

/-- Deck ids of the player_collect calls, in call order: each process_deck
makes exactly one such call, so this records the processing order. -/
def collectIds (t : List Event) : List ℕ :=
  t.filterMap collectId

/-- Number of timecoder_submit calls in a trace. -/
def countSubmits (t : List Event) : ℕ :=
  t.countP fun e =>
    match e with
    | Event.submit _ _ _ _ => true
    | _ => false

/-- Number of player_collect calls in a trace. -/
def countCollects (t : List Event) : ℕ :=
  t.countP fun e =>
    match e with
    | Event.collect _ _ _ => true
    | _ => false

/-- C3: per cycle, the process callback performs the per-deck processing
exactly once per registered deck, in exact registration order (witnessed
by the player_collect call each deck makes), and returns 0. -/
theorem process_callback_contract (rate : ℕ) (registry : List Device)
    (nframes : ℕ) :
    collectIds (process_callback rate registry nframes).1
        = registry.map Device.id ∧
    (process_callback rate registry nframes).2 = 0 := by
  constructor
  · induction registry with
    | nil => simp [process_callback, collectIds]
    | cons dv rest ih =>
      simp only [process_callback, List.flatMap_cons, List.map_cons] at *
      unfold collectIds at *
      rw [List.filterMap_append, ih]
      unfold process_deck
      cases h : dv.hasTimecoder <;> simp [h, collectId]
  · rfl

/-- C4 counterexample: a deck with no attached timecoder makes no
timecoder_submit call during its cycle, so "exactly one submit-to-decoder
call per deck per cycle" fails for it. -/
theorem process_deck_submit_counterexample :
    countSubmits (process_deck 44100
      { id := 0, hasTimecoder := false, inputBuf := fun _ _ => 0,
        playerOut := fun _ _ => [], localSet := false,
        hooksSet := false } 1).1 ≠ 1 := by
  simp [process_deck, countSubmits]

/-- C4 (amended): per deck per cycle, process_deck makes exactly one
timecoder_submit call when the deck has an attached timecoder and none
otherwise, exactly one player_collect call, and both output channel
buffers are fully written with all `nframes` frames on every path. -/
theorem process_deck_contract (rate : ℕ) (dv : Device) (nframes : ℕ) :
    countSubmits (process_deck rate dv nframes).1
        = (if dv.hasTimecoder then 1 else 0) ∧
    countCollects (process_deck rate dv nframes).1 = 1 ∧
    ∀ n, ((process_deck rate dv nframes).2 n).length = nframes := by
  refine ⟨?_, ?_, ?_⟩
  · unfold process_deck countSubmits
    cases h : dv.hasTimecoder <;> simp [h]
  · unfold process_deck countCollects
    cases h : dv.hasTimecoder <;> simp [h]
  · intro n
    simp [process_deck, uninterleave]

/-- MAX_DECKS from jack.c. -/
def MAX_DECKS : ℕ := 4

/-- Size of the port_name buffer in register_ports. -/
def PORT_NAME_BUFSIZE : ℕ := 32

/-- The per-channel label array from register_ports. -/
def channel : List Char := ['L', 'R']

/-- The string written by `sprintf(port_name, "%s_timecode_%c", name, c)`. -/
def timecode_name (nm : String) (c : Char) : String :=
  nm ++ "_timecode_" ++ String.singleton c

/-- The string written by `sprintf(port_name, "%s_playback_%c", name, c)`. -/
def playback_name (nm : String) (c : Char) : String :=
  nm ++ "_playback_" ++ String.singleton c

/-- The registration loop of register_ports: for each channel, register
the timecode input port, then the playback output port, stopping at the
first failure.  `ok k` tells whether the k-th jack_port_register call
succeeds.  Returns the list of ports created, as (name, isInput) pairs,
and whether the whole loop succeeded. -/
def register_loop (ok : ℕ → Bool) (nm : String) :
    List Char → ℕ → List (String × Bool) × Bool
  | [], _ => ([], true)
  | c :: rest, k =>
    if ok k = true then
      if ok (k + 1) = true then
        let r := register_loop ok nm rest (k + 2)
        ((timecode_name nm c, true) :: (playback_name nm c, false) :: r.1,
          r.2)
      else ([(timecode_name nm c, true)], false)
    else ([], false)

/-- register_ports from jack.c. -/
def register_ports (ok : ℕ → Bool) (nm : String) :
    List (String × Bool) × Bool :=
  register_loop ok nm channel 0

/-- Process-wide backend state: the globals client, rate, device[], decks
of jack.c, plus whether the process callback was installed. -/
structure JackState where
  client : Bool
  callbackInstalled : Bool
  rate : ℕ
  registry : List Device

/-- Outcomes of the external calls made during one jack_init: whether
jack_client_open succeeds, whether jack_set_process_callback succeeds,
the negotiated sample rate, whether malloc succeeds, and which
jack_port_register calls succeed. -/
structure InitEnv where
  clientOpenOk : Bool
  callbackOk : Bool
  newRate : ℕ
  mallocOk : Bool
  portOk : ℕ → Bool

/-- Client lifecycle calls observable during jack_init. -/
inductive InitEvent where
  | openAttempt
  | cbInstall
  deriving DecidableEq

/-- Result of jack_init: 0, -1, or a fatal assertion failure. -/
inductive InitResult where
  | ok
  | err
  | assertFail
  deriving DecidableEq

/-- Result record of one jack_init call: the global state after the call,
the device record after the call, the return status, and the client
lifecycle calls made. -/
structure InitOut where
  st : JackState
  dv : Device
  res : InitResult
  events : List InitEvent

/-- start_jack_client from jack.c: open the client; on success install the
process callback; on success record the sample rate.  Note that when the
callback cannot be installed the client stays open. -/
def start_jack_client (env : InitEnv) (st : JackState) :
    JackState × Bool × List InitEvent :=
  if env.clientOpenOk = false then (st, false, [InitEvent.openAttempt])
  else if env.callbackOk = false then
    ({ st with client := true }, false,
      [InitEvent.openAttempt, InitEvent.cbInstall])
  else
    ({ st with
        client := true
        callbackInstalled := true
        rate := env.newRate },
      true, [InitEvent.openAttempt, InitEvent.cbInstall])

/-- The part of jack_init after the client-setup step: malloc the backend
state, register the ports, fill in the device record, assert the deck
bound and append to the registry.  `r` is (state, client-setup ok,
lifecycle events). -/
def jack_init_after (env : InitEnv) (r : JackState × Bool × List InitEvent)
    (dv : Device) (nm : String) : InitOut :=
  if r.2.1 = false then ⟨r.1, dv, InitResult.err, r.2.2⟩
  else if env.mallocOk = false then ⟨r.1, dv, InitResult.err, r.2.2⟩
  else if (register_ports env.portOk nm).2 = false then
    ⟨r.1, dv, InitResult.err, r.2.2⟩
  else if r.1.registry.length < MAX_DECKS then
    ⟨{ r.1 with registry := r.1.registry
        ++ [{ dv with localSet := true, hooksSet := true }] },
      { dv with localSet := true, hooksSet := true }, InitResult.ok, r.2.2⟩
  else
    ⟨r.1, { dv with localSet := true, hooksSet := true },
      InitResult.assertFail, r.2.2⟩

/-- jack_init from jack.c: start the client if this is the first deck,
then allocate, register ports, fill the device record, and append the
deck to the registry, asserting the capacity bound first. -/
def jack_init (env : InitEnv) (st : JackState) (dv : Device)
    (nm : String) : InitOut :=
  jack_init_after env
    (if st.client = false then start_jack_client env st else (st, true, []))
    dv nm

theorem start_jack_client_registry (env : InitEnv) (st : JackState) :
    (start_jack_client env st).1.registry = st.registry := by
  unfold start_jack_client
  split_ifs <;> rfl

theorem start_jack_client_open_mem (env : InitEnv) (st : JackState) :
    InitEvent.openAttempt ∈ (start_jack_client env st).2.2 := by
  unfold start_jack_client
  split_ifs <;> simp

theorem jack_init_after_events (env : InitEnv)
    (r : JackState × Bool × List InitEvent) (dv : Device) (nm : String) :
    (jack_init_after env r dv nm).events = r.2.2 := by
  unfold jack_init_after
  split_ifs <;> rfl

theorem jack_init_after_err (env : InitEnv)
    (r : JackState × Bool × List InitEvent) (dv : Device) (nm : String)
    (h : (jack_init_after env r dv nm).res = InitResult.err) :
    (jack_init_after env r dv nm).dv = dv ∧
    (jack_init_after env r dv nm).st.registry = r.1.registry := by
  unfold jack_init_after at h ⊢
  split_ifs at h ⊢ <;> simp_all

/-- C5: with the client open and malloc and port registration succeeding,
registering a fifth deck hits the fatal capacity assertion before any
registry slot is written, while registrations up to four decks append. -/
theorem jack_init_after_assert_eq (env : InitEnv)
    (r : JackState × Bool × List InitEvent) (dv : Device) (nm : String)
    (hok : r.2.1 = true) (hm : env.mallocOk = true)
    (hp : (register_ports env.portOk nm).2 = true)
    (hfull : MAX_DECKS ≤ r.1.registry.length) :
    jack_init_after env r dv nm
      = ⟨r.1, { dv with localSet := true, hooksSet := true },
          InitResult.assertFail, r.2.2⟩ := by
  unfold jack_init_after
  rw [if_neg (by simp [hok]), if_neg (by simp [hm]), if_neg (by simp [hp]),
    if_neg (Nat.not_lt.mpr hfull)]

theorem jack_init_after_ok_eq (env : InitEnv)
    (r : JackState × Bool × List InitEvent) (dv : Device) (nm : String)
    (hok : r.2.1 = true) (hm : env.mallocOk = true)
    (hp : (register_ports env.portOk nm).2 = true)
    (hroom : r.1.registry.length < MAX_DECKS) :
    jack_init_after env r dv nm
      = ⟨{ r.1 with registry := r.1.registry
            ++ [{ dv with localSet := true, hooksSet := true }] },
          { dv with localSet := true, hooksSet := true },
          InitResult.ok, r.2.2⟩ := by
  unfold jack_init_after
  rw [if_neg (by simp [hok]), if_neg (by simp [hm]), if_neg (by simp [hp]),
    if_pos hroom]

theorem jack_init_capacity (env : InitEnv) (st : JackState) (dv : Device)
    (nm : String) (hc : st.client = true) (hm : env.mallocOk = true)
    (hp : (register_ports env.portOk nm).2 = true) :
    (MAX_DECKS ≤ st.registry.length →
      (jack_init env st dv nm).res = InitResult.assertFail ∧
      (jack_init env st dv nm).st.registry = st.registry) ∧
    (st.registry.length < MAX_DECKS →
      (jack_init env st dv nm).res = InitResult.ok ∧
      (jack_init env st dv nm).st.registry
        = st.registry ++ [(jack_init env st dv nm).dv]) := by
  have hr : (if st.client = false then start_jack_client env st
      else (st, true, ([] : List InitEvent))) = (st, true, []) :=
    if_neg (by simp [hc])
  constructor
  · intro h
    have e1 : jack_init env st dv nm
        = ⟨st, { dv with localSet := true, hooksSet := true },
            InitResult.assertFail, []⟩ := by
      unfold jack_init
      rw [hr]
      exact jack_init_after_assert_eq env (st, true, []) dv nm rfl hm hp h
    rw [e1]
    exact ⟨rfl, rfl⟩
  · intro h
    have e2 : jack_init env st dv nm
        = ⟨{ st with registry := st.registry
              ++ [{ dv with localSet := true, hooksSet := true }] },
            { dv with localSet := true, hooksSet := true },
            InitResult.ok, []⟩ := by
      unfold jack_init
      rw [hr]
      exact jack_init_after_ok_eq env (st, true, []) dv nm rfl hm hp h
    rw [e2]
    exact ⟨rfl, rfl⟩

/-- A deck record used for concrete instances. -/
def dummyDev (i : ℕ) : Device :=
  { id := i
    hasTimecoder := true
    inputBuf := fun _ _ => 0
    playerOut := fun _ _ => []
    localSet := false
    hooksSet := false }

/-- An environment in which every external call succeeds. -/
def allOkEnv : InitEnv :=
  { clientOpenOk := true
    callbackOk := true
    newRate := 48000
    mallocOk := true
    portOk := fun _ => true }

/-- The state with four decks already registered and the client open. -/
def fullState : JackState :=
  { client := true
    callbackInstalled := true
    rate := 44100
    registry := [dummyDev 0, dummyDev 1, dummyDev 2, dummyDev 3] }

/-- C5 witness: a fifth registration on a full registry asserts and
leaves the registry untouched. -/
theorem jack_init_capacity_witness :
    (jack_init allOkEnv fullState (dummyDev 4) "e").res
        = InitResult.assertFail ∧
    (jack_init allOkEnv fullState (dummyDev 4) "e").st.registry
        = fullState.registry :=
  (jack_init_capacity allOkEnv fullState (dummyDev 4) "e" rfl rfl rfl).1
    (by simp [fullState, MAX_DECKS])

/-- C6: when all port registrations succeed, register_ports creates
exactly the four ports "<name>_timecode_L", "<name>_playback_L",
"<name>_timecode_R", "<name>_playback_R", the timecode ones as inputs
and the playback ones as outputs. -/
theorem register_ports_names (ok : ℕ → Bool) (nm : String)
    (h : ∀ k, ok k = true) :
    register_ports ok nm =
      ([(nm ++ "_timecode_L", true), (nm ++ "_playback_L", false),
        (nm ++ "_timecode_R", true), (nm ++ "_playback_R", false)],
        true) := by
  have hL : ∀ s : String, s ++ "_timecode_" ++ String.singleton 'L'
      = s ++ "_timecode_L" := by
    intro s
    rw [String.append_assoc]
    congr 1
  have hR : ∀ s : String, s ++ "_timecode_" ++ String.singleton 'R'
      = s ++ "_timecode_R" := by
    intro s
    rw [String.append_assoc]
    congr 1
  have pL : ∀ s : String, s ++ "_playback_" ++ String.singleton 'L'
      = s ++ "_playback_L" := by
    intro s
    rw [String.append_assoc]
    congr 1
  have pR : ∀ s : String, s ++ "_playback_" ++ String.singleton 'R'
      = s ++ "_playback_R" := by
    intro s
    rw [String.append_assoc]
    congr 1
  simp [register_ports, register_loop, channel, h, timecode_name,
    playback_name, hL, hR, pL, pR]

/-- C6 witness: the exact port names for a concrete deck name. -/
theorem register_ports_names_witness :
    register_ports (fun _ => true) "deck" =
      ([("deck" ++ "_timecode_L", true), ("deck" ++ "_playback_L", false),
        ("deck" ++ "_timecode_R", true), ("deck" ++ "_playback_R", false)],
        true) :=
  register_ports_names (fun _ => true) "deck" (fun _ => rfl)

/-- C7 counterexample: the empty starting state and a first call whose
jack_client_open fails.  The first jack_init fails, but a later jack_init
attempts to open the client again (the client pointer is still NULL) and
succeeds, contradicting "every subsequent deck initialization attempt
also fails without retrying the client connection". -/
theorem jack_init_retry_counterexample :
    (jack_init
      { clientOpenOk := false, callbackOk := true, newRate := 48000,
        mallocOk := true, portOk := fun _ => true }
      { client := false, callbackInstalled := false, rate := 0,
        registry := [] } (dummyDev 0) "a").res = InitResult.err ∧
    (jack_init allOkEnv
      (jack_init
        { clientOpenOk := false, callbackOk := true, newRate := 48000,
          mallocOk := true, portOk := fun _ => true }
        { client := false, callbackInstalled := false, rate := 0,
          registry := [] } (dummyDev 0) "a").st
      (dummyDev 1) "b").res = InitResult.ok ∧
    InitEvent.openAttempt ∈ (jack_init allOkEnv
      (jack_init
        { clientOpenOk := false, callbackOk := true, newRate := 48000,
          mallocOk := true, portOk := fun _ => true }
        { client := false, callbackInstalled := false, rate := 0,
          registry := [] } (dummyDev 0) "a").st
      (dummyDev 1) "b").events := by
  refine ⟨rfl, rfl, ?_⟩
  show InitEvent.openAttempt ∈ [InitEvent.openAttempt, InitEvent.cbInstall]
  simp

/-- C7 (amended): starting from an unopened client, if the first
jack_init fails at callback installation, the client is left open, and a
later jack_init performs no client-open and no callback-install call at
all (it proceeds without either retrying or failing at that stage); if
instead the first jack_init fails at client open, the client stays
unopened and a later jack_init retries the open. -/
theorem jack_init_client_failure_behaviour (env1 env2 : InitEnv)
    (st : JackState) (dv1 dv2 : Device) (nm1 nm2 : String)
    (h0 : st.client = false) :
    (env1.clientOpenOk = true → env1.callbackOk = false →
      ((jack_init env1 st dv1 nm1).res = InitResult.err ∧
       (jack_init env2 (jack_init env1 st dv1 nm1).st dv2 nm2).events
         = [])) ∧
    (env1.clientOpenOk = false →
      ((jack_init env1 st dv1 nm1).res = InitResult.err ∧
       InitEvent.openAttempt ∈
         (jack_init env2 (jack_init env1 st dv1 nm1).st dv2 nm2).events)) := by
  constructor
  · intro hco hcb
    have hs : start_jack_client env1 st
        = ({ st with client := true }, false,
            [InitEvent.openAttempt, InitEvent.cbInstall]) := by
      unfold start_jack_client
      rw [if_neg (by simp [hco]), if_pos hcb]
    have e1 : jack_init env1 st dv1 nm1
        = ⟨{ st with client := true }, dv1, InitResult.err,
            [InitEvent.openAttempt, InitEvent.cbInstall]⟩ := by
      unfold jack_init
      rw [if_pos h0, hs]
      unfold jack_init_after
      rw [if_pos rfl]
    refine ⟨by rw [e1], ?_⟩
    rw [e1]
    unfold jack_init
    rw [if_neg (by simp), jack_init_after_events]
  · intro hco
    have hs : start_jack_client env1 st
        = (st, false, [InitEvent.openAttempt]) := by
      unfold start_jack_client
      rw [if_pos hco]
    have e1 : jack_init env1 st dv1 nm1
        = ⟨st, dv1, InitResult.err, [InitEvent.openAttempt]⟩ := by
      unfold jack_init
      rw [if_pos h0, hs]
      unfold jack_init_after
      rw [if_pos rfl]
    refine ⟨by rw [e1], ?_⟩
    rw [e1]
    unfold jack_init
    rw [if_pos h0, jack_init_after_events]
    exact start_jack_client_open_mem env2 st

/-- C7 witness: a concrete callback-install failure followed by a second
call that makes no client lifecycle calls, and a concrete client-open
failure followed by a second call that retries the open. -/
theorem jack_init_client_failure_behaviour_witness :
    ((jack_init
        { clientOpenOk := true, callbackOk := false, newRate := 48000,
          mallocOk := true, portOk := fun _ => true }
        { client := false, callbackInstalled := false, rate := 0,
          registry := [] } (dummyDev 0) "a").res = InitResult.err ∧
      (jack_init allOkEnv
        (jack_init
          { clientOpenOk := true, callbackOk := false, newRate := 48000,
            mallocOk := true, portOk := fun _ => true }
          { client := false, callbackInstalled := false, rate := 0,
            registry := [] } (dummyDev 0) "a").st
        (dummyDev 1) "b").events = []) :=
  (jack_init_client_failure_behaviour
    { clientOpenOk := true, callbackOk := false, newRate := 48000,
      mallocOk := true, portOk := fun _ => true } allOkEnv
    { client := false, callbackInstalled := false, rate := 0,
      registry := [] } (dummyDev 0) (dummyDev 1) "a" "b" rfl).1 rfl rfl

/-- C9: whenever jack_init returns -1 — client open failed, callback
install failed, malloc failed, or a port registration failed — the device
record is left unmodified and the deck registry is unchanged. -/
theorem jack_init_err_preserves (env : InitEnv) (st : JackState)
    (dv : Device) (nm : String)
    (h : (jack_init env st dv nm).res = InitResult.err) :
    (jack_init env st dv nm).dv = dv ∧
    (jack_init env st dv nm).st.registry = st.registry := by
  have h2 := jack_init_after_err env
    (if st.client = false then start_jack_client env st else (st, true, []))
    dv nm h
  refine ⟨h2.1, h2.2.trans ?_⟩
  split
  · exact start_jack_client_registry env st
  · rfl

/-- C9 witness: a malloc failure returns -1 and changes neither the
device record nor the registry. -/
theorem jack_init_err_preserves_witness :
    (jack_init
      { clientOpenOk := true, callbackOk := true, newRate := 48000,
        mallocOk := false, portOk := fun _ => true }
      fullState (dummyDev 4) "a").dv = dummyDev 4 ∧
    (jack_init
      { clientOpenOk := true, callbackOk := true, newRate := 48000,
        mallocOk := false, portOk := fun _ => true }
      fullState (dummyDev 4) "a").st.registry = fullState.registry :=
  jack_init_err_preserves
    { clientOpenOk := true, callbackOk := true, newRate := 48000,
      mallocOk := false, portOk := fun _ => true }
    fullState (dummyDev 4) "a" rfl

/-- C10: the port_name buffer holds 32 bytes; for any deck name of at
most 20 characters, each formatted port name (including its terminating
NUL byte) fits within the buffer. -/
theorem port_name_fits (nm : String) (h : nm.length ≤ 20) (c : Char) :
    (timecode_name nm c).length + 1 ≤ PORT_NAME_BUFSIZE ∧
    (playback_name nm c).length + 1 ≤ PORT_NAME_BUFSIZE := by
  have h1 : (String.singleton c).length = 1 := rfl
  have h2 : ("_timecode_" : String).length = 10 := rfl
  have h3 : ("_playback_" : String).length = 10 := rfl
  unfold timecode_name playback_name PORT_NAME_BUFSIZE
  rw [String.length_append, String.length_append, String.length_append,
    String.length_append, h1, h2, h3]
  omega

/-- C10 witness: a 20-character deck name fits exactly. -/
theorem port_name_fits_witness :
    (timecode_name "abcdefghijklmnopqrst" 'L').length + 1
        ≤ PORT_NAME_BUFSIZE ∧
    (playback_name "abcdefghijklmnopqrst" 'L').length + 1
        ≤ PORT_NAME_BUFSIZE :=
  port_name_fits "abcdefghijklmnopqrst" (by decide) 'L'

end Jack
